import Mathlib

/-!
Verification of the transaction Executive of src/libethereum/Executive.cpp.

The Executive logic (setup, call, create, go, finalize) is translated
line by line from the source.  Its external collaborators - the Ledger
State, the Execution Context Adapter (ExtVM), the bytecode interpreter,
the precompiled-contract registry, the intrinsic-gas formula and the
contract-address hash - are not part of this source tree and are
modelled from the specification.  The 256-bit unsigned quantities of the
source are modelled as natural numbers; every subtraction in the source
is guarded by a comparison, which the theorems below track explicitly.
-/

/-- Account record of the Ledger State.  Modelled from the spec: balance
(non-negative integer), nonce, code bytes (empty list meaning absent) and
persistent key/value storage. -/
structure Account where
  balance : Nat
  nonce : Nat
  code : List Nat
  storage : List (Nat × Nat)
  deriving DecidableEq

/-- Account as left by a self-destruction.  Modelled from the spec:
balance, code and storage all cleared. -/
def Account.dead : Account := ⟨0, 0, [], []⟩

/-- Precompiled (native) contract.  Modelled from the spec: a gas-cost
formula over the input and a synchronous execute function. -/
structure Precompile where
  gas : List Nat → Nat
  exec : List Nat → List Nat

/-- Ledger State borrowed by the Executive for one transaction, together
with the per-block context.  Modelled from the spec (external interfaces). -/
structure State where
  accounts : Nat → Account
  blockGasUsed : Nat
  blockGasLimit : Nat
  coinbase : Nat
  precompiled : Nat → Option Precompile

/-- Pointwise update of a single account record. -/
def State.update (s : State) (a : Nat) (f : Account → Account) : State :=
  { s with accounts := fun x => if x = a then f (s.accounts x) else s.accounts x }

/-- Modelled from the spec: current nonce recorded for an address. -/
def State.transactionsFrom (s : State) (a : Nat) : Nat := (s.accounts a).nonce

/-- Modelled from the spec: balance of an address. -/
def State.balance (s : State) (a : Nat) : Nat := (s.accounts a).balance

/-- Modelled from the spec: mark-nonce-used increments the sender nonce. -/
def State.noteSending (s : State) (a : Nat) : State :=
  s.update a (fun ac => { ac with nonce := ac.nonce + 1 })

/-- Modelled from the spec: debit a balance (callers guard affordability). -/
def State.subBalance (s : State) (a : Nat) (v : Nat) : State :=
  s.update a (fun ac => { ac with balance := ac.balance - v })

/-- Modelled from the spec: credit a balance. -/
def State.addBalance (s : State) (a : Nat) (v : Nat) : State :=
  s.update a (fun ac => { ac with balance := ac.balance + v })

/-- Modelled from the spec: whether an address has associated code. -/
def State.addressHasCode (s : State) (a : Nat) : Bool := !(s.accounts a).code.isEmpty

/-- Modelled from the spec: code bytes stored at an address. -/
def State.code (s : State) (a : Nat) : List Nat := (s.accounts a).code

/-- Modelled from the spec: install code at an address. -/
def State.setCode (s : State) (a : Nat) (c : List Nat) : State :=
  s.update a (fun ac => { ac with code := c })

/-- Modelled from the spec: account removal applied at finalization. -/
def State.kill (s : State) (a : Nat) : State := s.update a (fun _ => Account.dead)

/-- Transaction consumed read-only by the Executive: sender (recovered
from the signature by external code), nonce, value, gas price, gas limit,
optional receiver (absent meaning creation) and payload data. -/
structure Transaction where
  sender : Nat
  nonce : Nat
  value : Nat
  gasPrice : Nat
  gas : Nat
  receiver : Option Nat
  data : List Nat
  deriving DecidableEq

/-- Whether the transaction is a contract creation (no receiver). -/
def Transaction.isCreation (t : Transaction) : Bool := t.receiver.isNone

/-- Receiver address of a message-call transaction. -/
def Transaction.receiveAddress (t : Transaction) : Nat := t.receiver.getD 0

/-- Sub-state accumulated by one call frame: logs, refund counter and
self-destruct set.  Modelled from the spec. -/
structure SubState where
  logs : List Nat
  refunds : Nat
  suicides : List Nat
  deriving DecidableEq

/-- Empty sub-state of a freshly constructed frame. -/
def SubState.empty : SubState := ⟨[], 0, []⟩

/-- Execution Context Adapter bridging the interpreter to the Ledger
State for one frame.  Modelled from the spec: the construction parameters
plus the accumulated sub-state. -/
structure ExtVM where
  myAddress : Nat
  caller : Nat
  origin : Nat
  value : Nat
  gasPrice : Nat
  data : List Nat
  code : List Nat
  depth : Nat
  sub : SubState
  deriving DecidableEq

/-- Construction of a fresh adapter (empty accumulated sub-state). -/
def ExtVM.make (myAddress caller origin value gasPrice : Nat)
    (data code : List Nat) (depth : Nat) : ExtVM :=
  ⟨myAddress, caller, origin, value, gasPrice, data, code, depth, SubState.empty⟩

/-- Modelled from the spec: revert discards the accumulated logs, refunds
and pending destructions of the frame. -/
def ExtVM.revert (e : ExtVM) : ExtVM := { e with sub := SubState.empty }

/-- Modelled from the spec: the external per-byte deployment cost
constant (the fee schedule is not part of this source tree; no claim
depends on its numeric value). -/
def c_createDataGas : Nat := 5

/-- Validation errors raised by setup, in source order. -/
inductive SetupError where
  | invalidNonce
  | outOfGas
  | notEnoughCash
  | blockGasLimitReached
  deriving DecidableEq

/-- The Executive: one transaction's transient execution record.  The
interpreter instance is recorded by its construction gas budget; the
precompileRan field is instrumentation recording whether a native
contract's execute function was invoked (the source discards its output
buffer, so the invocation is otherwise unobservable). -/
structure Executive where
  t : Transaction
  sender : Nat
  isCreation : Bool
  newAddress : Nat
  endGas : Nat
  out : List Nat
  logs : List Nat
  excepted : Bool
  depth : Nat
  vm : Option Nat
  ext : Option ExtVM
  precompileRan : Bool
  deriving DecidableEq

/-- Executive as constructed for a fresh top-level transaction, after the
source has decoded the transaction and resolved the sender. -/
def Executive.mkInit (t : Transaction) : Executive :=
  ⟨t, t.sender, false, 0, 0, [], [], false, 0, none, none, false⟩

/-- Result of one dispatch or drive step: the concluded flag returned by
the source, the Executive and the Ledger State. -/
structure Outcome where
  concluded : Bool
  exec : Executive
  st : State

/-- Result of setup: the validation verdict plus Executive and State. -/
structure SetupOut where
  res : Except SetupError Bool
  exec : Executive
  st : State

/-- Packaging of a dispatch outcome as a setup result. -/
def SetupOut.ofOutcome (o : Outcome) : SetupOut := ⟨.ok o.concluded, o.exec, o.st⟩

/-- Modelled from the spec: the deterministic contract-address derivation
right160(sha3(rlpList(sender, nonce))) of the source, an injective pure
function of the creator address and nonce, so that no two creations
collide under correct sequencing. -/
def createAddress (sender nonce : Nat) : Nat := Nat.pair sender nonce

/-- Translation of Executive::call (source lines 95 to 123): credit the
value to the receiver, then dispatch to a precompiled contract, an
interpreter frame over the code stored at the receive address, or the
plain-transfer path. -/
def Executive.call (ex : Executive) (s : State)
    (receiveAddress codeAddress senderAddress value gasPrice : Nat)
    (data : List Nat) (gas : Nat) (originAddress : Nat) : Outcome :=
  let ex1 := { ex with isCreation := false, precompileRan := false }
  let s1 := s.addBalance receiveAddress value
  match (if receiveAddress < 2 ^ 32 then s1.precompiled receiveAddress else none) with
  | some p =>
      if gas < p.gas data then
        ⟨false, { ex1 with endGas := 0 }, s1⟩
      else
        ⟨true, { ex1 with endGas := gas - p.gas data, precompileRan := true }, s1⟩
  | none =>
      if s1.addressHasCode codeAddress then
        ⟨false,
         { ex1 with
           vm := some gas,
           ext := some (ExtVM.make receiveAddress senderAddress originAddress
                          value gasPrice data (s1.code receiveAddress) ex.depth) }, s1⟩
      else
        ⟨true, { ex1 with endGas := gas }, s1⟩

/-- Translation of Executive::create (source lines 125 to 140): derive
the new address from the sender and the sender's nonce minus one (the
nonce was already incremented by setup), materialize the new account with
its previous balance plus the endowment, and construct the interpreter
frame over the initialization code. -/
def Executive.create (ex : Executive) (s : State)
    (sender endowment gasPrice gas : Nat) (initCode : List Nat) (origin : Nat) : Outcome :=
  let na := createAddress sender (s.transactionsFrom sender - 1)
  let s1 : State := { s with accounts := fun x =>
      if x = na then ⟨s.balance na + endowment, 0, [], []⟩ else s.accounts x }
  ⟨initCode.isEmpty,
   { ex with
     isCreation := true,
     newAddress := na,
     vm := some gas,
     ext := some (ExtVM.make na sender origin endowment gasPrice [] initCode ex.depth) }, s1⟩

/-- Translation of Executive::setup (source lines 42 to 93).  The rlp
decoding, signature recovery and intrinsic-gas formula are external code;
the transaction arrives decoded and the intrinsic-gas function txGas is a
parameter.  The four validation checks run in source order before any
mutation; on success the sender nonce is incremented and the full cost
debited, then the transaction is dispatched to create or call. -/
def Executive.setup (txGas : List Nat → Nat) (s : State) (t : Transaction) : SetupOut :=
  if t.nonce ≠ s.transactionsFrom t.sender then
    ⟨.error .invalidNonce, Executive.mkInit t, s⟩
  else if t.gas < txGas t.data then
    ⟨.error .outOfGas, Executive.mkInit t, s⟩
  else if s.balance t.sender < t.value + t.gas * t.gasPrice then
    ⟨.error .notEnoughCash, Executive.mkInit t, s⟩
  else if s.blockGasUsed + t.gas > s.blockGasLimit then
    ⟨.error .blockGasLimitReached, Executive.mkInit t, s⟩
  else
    let s2 := (s.noteSending t.sender).subBalance t.sender (t.value + t.gas * t.gasPrice)
    SetupOut.ofOutcome
      (if t.isCreation then
        (Executive.mkInit t).create s2 t.sender t.value t.gasPrice
          (t.gas - txGas t.data) t.data t.sender
      else
        (Executive.mkInit t).call s2 t.receiveAddress t.receiveAddress t.sender
          t.value t.gasPrice t.data (t.gas - txGas t.data) t.sender)

/-- End gas after the refund of source lines 171 to 172: the remaining
interpreter gas plus min of half the gas consumed against the whole
transaction gas limit and the accumulated refund counter. -/
def refundedGas (txGasLimit gasLeft refunds : Nat) : Nat :=
  gasLeft + min ((txGasLimit - gasLeft) / 2) refunds

/-- Outcome reported by the external interpreter when driven by go.
Modelled from the spec: the interpreter produces output bytes and a
mutated sub-state, or raises one of the distinguished faults. -/
inductive VMOutcome where
  | normal (out : List Nat) (gasLeft : Nat) (sub : SubState)
  | stepsDone
  | vmFault (sub : SubState)
  | otherFault

/-- Translation of Executive::go (source lines 162 to 210), with the
external interpreter run abstracted by its reported VMOutcome.  With no
interpreter instance this is a no-op returning concluded. -/
def Executive.go (ex : Executive) (s : State) (r : VMOutcome) : Outcome :=
  match ex.vm, ex.ext with
  | some _, some e =>
    (match r with
     | .normal outBytes gasLeft sub =>
        let eg := refundedGas ex.t.gas gasLeft sub.refunds
        let ex1 :=
          { ex with
            out := outBytes,
            endGas := eg,
            logs := sub.logs,
            ext := some { e with sub := sub } }
        if ex.isCreation then
          (if outBytes.length * c_createDataGas ≤ eg then
            ⟨true, { ex1 with endGas := eg - outBytes.length * c_createDataGas }, s⟩
          else
            ⟨true, { ex1 with out := [] }, s⟩)
        else ⟨true, ex1, s⟩
     | .stepsDone => ⟨false, ex, s⟩
     | .vmFault sub =>
        ⟨true,
         { ex with
           endGas := 0,
           excepted := true,
           ext := some (ExtVM.revert { e with sub := sub }) }, s⟩
     | .otherFault => ⟨true, ex, s⟩)
  | _, _ => ⟨true, ex, s⟩

/-- Self-destruct set held by the adapter, empty when no adapter was
constructed (the source guards the loop with a null check). -/
def extSuicides (ex : Executive) : List Nat :=
  match ex.ext with
  | some e => e.sub.suicides
  | none => []

/-- Translation of Executive::finalize (source lines 217 to 234): install
the creation output as code unless the new address self-destructed,
refund the unused gas to the sender, credit the fees to the block's fee
recipient, then apply the collected self-destructions.  It is a total
function: finalize has no failure path. -/
def Executive.finalize (ex : Executive) (s : State) : State :=
  let s1 := if ex.t.isCreation ∧ ex.newAddress ∉ extSuicides ex
            then s.setCode ex.newAddress ex.out else s
  let s2 := s1.addBalance ex.sender (ex.endGas * ex.t.gasPrice)
  let s3 := s2.addBalance s2.coinbase ((ex.t.gas - ex.endGas) * ex.t.gasPrice)
  (extSuicides ex).foldl State.kill s3

/-- Gas used accessor of the source (line 39). -/
def Executive.gasUsed (ex : Executive) : Nat := ex.t.gas - ex.endGas

/-- Modelled from the spec (control flow): the caller runs setup, then
go, then, when the run concluded, finalize.  A rejected transaction or a
step-limited run does not finalize. -/
def execute (txGas : List Nat → Nat) (s : State) (t : Transaction) (r : VMOutcome) :
    Option (Executive × State) :=
  match Executive.setup txGas s t with
  | ⟨.error _, _, _⟩ => none
  | ⟨.ok _, ex, st⟩ =>
      let o := ex.go st r
      if o.concluded then some (o.exec, o.exec.finalize o.st) else none

/-! Helper lemmas about the Ledger State operations. -/

@[simp] theorem State.accounts_update_self (s : State) (a : Nat) (f : Account → Account) :
    (s.update a f).accounts a = f (s.accounts a) := by
  simp [State.update]

@[simp] theorem State.accounts_update_ne (s : State) (a b : Nat) (f : Account → Account)
    (h : b ≠ a) : (s.update a f).accounts b = s.accounts b := by
  simp [State.update, h]

@[simp] theorem State.coinbase_update (s : State) (a : Nat) (f : Account → Account) :
    (s.update a f).coinbase = s.coinbase := rfl

@[simp] theorem State.precompiled_update (s : State) (a : Nat) (f : Account → Account) :
    (s.update a f).precompiled = s.precompiled := rfl

@[simp] theorem State.balance_noteSending (s : State) (a b : Nat) :
    (s.noteSending a).balance b = s.balance b := by
  by_cases h : b = a <;> simp [State.noteSending, State.balance, h]

@[simp] theorem State.transactionsFrom_noteSending_self (s : State) (a : Nat) :
    (s.noteSending a).transactionsFrom a = s.transactionsFrom a + 1 := by
  simp [State.noteSending, State.transactionsFrom]

@[simp] theorem State.balance_subBalance_self (s : State) (a : Nat) (v : Nat) :
    (s.subBalance a v).balance a = s.balance a - v := by
  simp [State.subBalance, State.balance]

@[simp] theorem State.balance_subBalance_ne (s : State) (a b v : Nat) (h : b ≠ a) :
    (s.subBalance a v).balance b = s.balance b := by
  simp [State.subBalance, State.balance, h]

@[simp] theorem State.transactionsFrom_subBalance (s : State) (a b v : Nat) :
    (s.subBalance a v).transactionsFrom b = s.transactionsFrom b := by
  by_cases h : b = a <;> simp [State.subBalance, State.transactionsFrom, h]

@[simp] theorem State.balance_addBalance_self (s : State) (a : Nat) (v : Nat) :
    (s.addBalance a v).balance a = s.balance a + v := by
  simp [State.addBalance, State.balance]

@[simp] theorem State.balance_addBalance_ne (s : State) (a b v : Nat) (h : b ≠ a) :
    (s.addBalance a v).balance b = s.balance b := by
  simp [State.addBalance, State.balance, h]

@[simp] theorem State.transactionsFrom_addBalance (s : State) (a b v : Nat) :
    (s.addBalance a v).transactionsFrom b = s.transactionsFrom b := by
  by_cases h : b = a <;> simp [State.addBalance, State.transactionsFrom, h]

@[simp] theorem State.code_addBalance (s : State) (a b v : Nat) :
    (s.addBalance a v).code b = s.code b := by
  by_cases h : b = a <;> simp [State.addBalance, State.code, h]

@[simp] theorem State.balance_setCode (s : State) (a b : Nat) (c : List Nat) :
    (s.setCode a c).balance b = s.balance b := by
  by_cases h : b = a <;> simp [State.setCode, State.balance, h]

@[simp] theorem State.code_setCode_self (s : State) (a : Nat) (c : List Nat) :
    (s.setCode a c).code a = c := by
  simp [State.setCode, State.code]

@[simp] theorem State.code_setCode_ne (s : State) (a b : Nat) (c : List Nat) (h : b ≠ a) :
    (s.setCode a c).code b = s.code b := by
  simp [State.setCode, State.code, h]

@[simp] theorem State.accounts_kill_self (s : State) (a : Nat) :
    (s.kill a).accounts a = Account.dead := by
  simp [State.kill]

@[simp] theorem State.accounts_kill_ne (s : State) (a b : Nat) (h : b ≠ a) :
    (s.kill a).accounts b = s.accounts b := by
  simp [State.kill, h]

theorem foldl_kill_accounts_not_mem (l : List Nat) (s : State) (a : Nat) (h : a ∉ l) :
    ((l.foldl State.kill s).accounts a) = s.accounts a := by
  induction l generalizing s with
  | nil => rfl
  | cons x xs ih =>
      have hx : a ≠ x := fun hax => h (hax ▸ List.mem_cons_self x xs)
      have hxs : a ∉ xs := fun hax => h (List.mem_cons_of_mem x hax)
      simp only [List.foldl_cons, ih _ hxs, State.accounts_kill_ne _ _ _ hx]

theorem foldl_kill_accounts_dead (l : List Nat) (s : State) (a : Nat)
    (h : s.accounts a = Account.dead) :
    ((l.foldl State.kill s).accounts a) = Account.dead := by
  induction l generalizing s with
  | nil => exact h
  | cons x xs ih =>
      simp only [List.foldl_cons]
      by_cases hx : a = x
      · exact ih _ (by simp [hx])
      · exact ih _ (by simpa [State.accounts_kill_ne _ _ _ hx] using h)

theorem foldl_kill_accounts_mem (l : List Nat) (s : State) (a : Nat) (h : a ∈ l) :
    ((l.foldl State.kill s).accounts a) = Account.dead := by
  induction l generalizing s with
  | nil => cases h
  | cons x xs ih =>
      simp only [List.foldl_cons]
      by_cases hx : a = x
      · exact foldl_kill_accounts_dead _ _ _ (by simp [hx])
      · exact ih _ (List.mem_of_ne_of_mem hx h)

theorem foldl_kill_coinbase (l : List Nat) (s : State) :
    (l.foldl State.kill s).coinbase = s.coinbase := by
  induction l generalizing s with
  | nil => rfl
  | cons x xs ih => simp only [List.foldl_cons, ih, State.kill, State.coinbase_update]

/-! Helper lemmas about go and finalize. -/

theorem go_st (ex : Executive) (s : State) (r : VMOutcome) : (ex.go s r).st = s := by
  unfold Executive.go
  rcases hv : ex.vm with _ | g <;> rcases he : ex.ext with _ | e <;> cases r <;>
    simp only [] <;> first | rfl | (split <;> first | rfl | (split <;> rfl))

theorem go_exec_t (ex : Executive) (s : State) (r : VMOutcome) : (ex.go s r).exec.t = ex.t := by
  unfold Executive.go
  rcases hv : ex.vm with _ | g <;> rcases he : ex.ext with _ | e <;> cases r <;>
    simp only [] <;> first | rfl | (split <;> first | rfl | (split <;> rfl))

theorem go_exec_sender (ex : Executive) (s : State) (r : VMOutcome) :
    (ex.go s r).exec.sender = ex.sender := by
  unfold Executive.go
  rcases hv : ex.vm with _ | g <;> rcases he : ex.ext with _ | e <;> cases r <;>
    simp only [] <;> first | rfl | (split <;> first | rfl | (split <;> rfl))

theorem go_exec_newAddress (ex : Executive) (s : State) (r : VMOutcome) :
    (ex.go s r).exec.newAddress = ex.newAddress := by
  unfold Executive.go
  rcases hv : ex.vm with _ | g <;> rcases he : ex.ext with _ | e <;> cases r <;>
    simp only [] <;> first | rfl | (split <;> first | rfl | (split <;> rfl))

@[simp] theorem State.coinbase_addBalance (s : State) (a v : Nat) :
    (s.addBalance a v).coinbase = s.coinbase := rfl

@[simp] theorem State.coinbase_setCode (s : State) (a : Nat) (c : List Nat) :
    (s.setCode a c).coinbase = s.coinbase := rfl

theorem foldl_kill_balance_not_mem (l : List Nat) (s : State) (a : Nat) (h : a ∉ l) :
    (l.foldl State.kill s).balance a = s.balance a := by
  simp [State.balance, foldl_kill_accounts_not_mem _ _ _ h]

theorem foldl_kill_code_not_mem (l : List Nat) (s : State) (a : Nat) (h : a ∉ l) :
    (l.foldl State.kill s).code a = s.code a := by
  simp [State.code, foldl_kill_accounts_not_mem _ _ _ h]

theorem creationBranch_coinbase (ex : Executive) (s : State) :
    (if ex.t.isCreation ∧ ex.newAddress ∉ extSuicides ex
     then s.setCode ex.newAddress ex.out else s).coinbase = s.coinbase := by
  split <;> rfl

theorem creationBranch_balance (ex : Executive) (s : State) (a : Nat) :
    (if ex.t.isCreation ∧ ex.newAddress ∉ extSuicides ex
     then s.setCode ex.newAddress ex.out else s).balance a = s.balance a := by
  split <;> simp

theorem finalize_balance_sender (ex : Executive) (s : State)
    (hk : ex.sender ∉ extSuicides ex) (hc : s.coinbase ≠ ex.sender) :
    (ex.finalize s).balance ex.sender = s.balance ex.sender + ex.endGas * ex.t.gasPrice := by
  simp only [Executive.finalize]
  rw [foldl_kill_balance_not_mem _ _ _ hk]
  rw [State.balance_addBalance_ne _ _ _ _ (by simp [creationBranch_coinbase, Ne.symm hc])]
  rw [State.balance_addBalance_self, creationBranch_balance]

theorem finalize_balance_coinbase (ex : Executive) (s : State)
    (hk : s.coinbase ∉ extSuicides ex) (hc : s.coinbase ≠ ex.sender) :
    (ex.finalize s).balance s.coinbase =
      s.balance s.coinbase + (ex.t.gas - ex.endGas) * ex.t.gasPrice := by
  simp only [Executive.finalize]
  rw [foldl_kill_balance_not_mem _ _ _ hk]
  have h1 : ((if ex.t.isCreation ∧ ex.newAddress ∉ extSuicides ex
      then s.setCode ex.newAddress ex.out else s).addBalance ex.sender
        (ex.endGas * ex.t.gasPrice)).coinbase = s.coinbase := by
    simp [creationBranch_coinbase]
  rw [h1, State.balance_addBalance_self]
  rw [State.balance_addBalance_ne _ _ _ _ hc, creationBranch_balance]

theorem finalize_balance_other (ex : Executive) (s : State) (a : Nat)
    (hk : a ∉ extSuicides ex) (h1 : a ≠ ex.sender) (h2 : a ≠ s.coinbase) :
    (ex.finalize s).balance a = s.balance a := by
  simp only [Executive.finalize]
  rw [foldl_kill_balance_not_mem _ _ _ hk]
  rw [State.balance_addBalance_ne _ _ _ _ (by simp [creationBranch_coinbase, h2])]
  rw [State.balance_addBalance_ne _ _ _ _ h1, creationBranch_balance]

theorem finalize_code_newAddress (ex : Executive) (s : State)
    (hcr : ex.t.isCreation = true) (hns : ex.newAddress ∉ extSuicides ex) :
    (ex.finalize s).code ex.newAddress = ex.out := by
  simp only [Executive.finalize]
  rw [foldl_kill_code_not_mem _ _ _ hns]
  simp only [State.code_addBalance]
  rw [if_pos ⟨hcr, hns⟩, State.code_setCode_self]

theorem finalize_code_not_creation (ex : Executive) (s : State) (a : Nat)
    (hcr : ex.t.isCreation = false) (hns : a ∉ extSuicides ex) :
    (ex.finalize s).code a = s.code a := by
  simp only [Executive.finalize]
  rw [foldl_kill_code_not_mem _ _ _ hns]
  simp only [State.code_addBalance]
  rw [if_neg (by simp [hcr])]

theorem finalize_accounts_suicide (ex : Executive) (s : State) (a : Nat)
    (h : a ∈ extSuicides ex) :
    ((ex.finalize s).accounts a) = Account.dead := by
  simp only [Executive.finalize]
  exact foldl_kill_accounts_mem _ _ _ h

/-! Helper lemmas about call, create and setup. -/

theorem call_st (ex : Executive) (s : State) (ra ca sa v gp : Nat) (d : List Nat)
    (g og : Nat) : (ex.call s ra ca sa v gp d g og).st = s.addBalance ra v := by
  simp only [Executive.call]
  split
  · split <;> rfl
  · split <;> rfl

theorem call_exec_t (ex : Executive) (s : State) (ra ca sa v gp : Nat) (d : List Nat)
    (g og : Nat) : (ex.call s ra ca sa v gp d g og).exec.t = ex.t := by
  simp only [Executive.call]
  split
  · split <;> rfl
  · split <;> rfl

theorem call_exec_sender (ex : Executive) (s : State) (ra ca sa v gp : Nat) (d : List Nat)
    (g og : Nat) : (ex.call s ra ca sa v gp d g og).exec.sender = ex.sender := by
  simp only [Executive.call]
  split
  · split <;> rfl
  · split <;> rfl

theorem create_exec_t (ex : Executive) (s : State) (sa en gp g : Nat) (ic : List Nat)
    (og : Nat) : (ex.create s sa en gp g ic og).exec.t = ex.t := rfl

theorem create_exec_sender (ex : Executive) (s : State) (sa en gp g : Nat) (ic : List Nat)
    (og : Nat) : (ex.create s sa en gp g ic og).exec.sender = ex.sender := rfl

theorem create_exec_newAddress (ex : Executive) (s : State) (sa en gp g : Nat) (ic : List Nat)
    (og : Nat) : (ex.create s sa en gp g ic og).exec.newAddress
      = createAddress sa (s.transactionsFrom sa - 1) := rfl

theorem create_st_coinbase (ex : Executive) (s : State) (sa en gp g : Nat) (ic : List Nat)
    (og : Nat) : (ex.create s sa en gp g ic og).st.coinbase = s.coinbase := rfl

theorem create_balance_ne (ex : Executive) (s : State) (sa en gp g : Nat) (ic : List Nat)
    (og a : Nat) (h : a ≠ createAddress sa (s.transactionsFrom sa - 1)) :
    (ex.create s sa en gp g ic og).st.balance a = s.balance a := by
  simp only [Executive.create]
  simp [State.balance, h]

/-- Facts available whenever setup succeeds: the Executive carries the
transaction and resolved sender, the block context is untouched, and -
when the receiver (the called address, or the derived address of a
creation) differs from the sender - the sender balance has been debited
by exactly value plus gas limit times gas price. -/
theorem setup_ok_spec (txGas : List Nat → Nat) (s : State) (t : Transaction)
    (b : Bool) (exec : Executive) (st : State)
    (h : Executive.setup txGas s t = ⟨.ok b, exec, st⟩) :
    exec.t = t ∧ exec.sender = t.sender ∧ st.coinbase = s.coinbase
    ∧ ((match t.receiver with
        | some a => a
        | none => createAddress t.sender (s.transactionsFrom t.sender)) ≠ t.sender →
      st.balance t.sender + (t.value + t.gas * t.gasPrice) = s.balance t.sender) := by
  unfold Executive.setup at h
  by_cases h1 : t.nonce ≠ s.transactionsFrom t.sender
  · rw [if_pos h1] at h; simp at h
  rw [if_neg h1] at h
  by_cases h2 : t.gas < txGas t.data
  · rw [if_pos h2] at h; simp at h
  rw [if_neg h2] at h
  by_cases h3 : s.balance t.sender < t.value + t.gas * t.gasPrice
  · rw [if_pos h3] at h; simp at h
  rw [if_neg h3] at h
  by_cases h4 : s.blockGasUsed + t.gas > s.blockGasLimit
  · rw [if_pos h4] at h; simp at h
  rw [if_neg h4] at h
  simp only [SetupOut.ofOutcome, SetupOut.mk.injEq] at h
  obtain ⟨-, hex, hst⟩ := h
  rcases ht : t.receiver with _ | ra
  · have hcr : t.isCreation = true := by simp [Transaction.isCreation, ht]
    rw [hcr] at hex hst
    simp only [if_true] at hex hst
    refine ⟨by rw [← hex, create_exec_t]; rfl, by rw [← hex, create_exec_sender]; rfl, ?_, ?_⟩
    · rw [← hst, create_st_coinbase]; rfl
    · intro hrecv
      have hrecv2 : createAddress t.sender (s.transactionsFrom t.sender) ≠ t.sender := hrecv
      rw [← hst, create_balance_ne]
      · simp only [State.balance_subBalance_self, State.balance_noteSending]
        exact Nat.sub_add_cancel (Nat.le_of_not_lt h3)
      · simp only [State.transactionsFrom_subBalance, State.transactionsFrom_noteSending_self,
          Nat.add_sub_cancel]
        exact Ne.symm hrecv2
  · have hcr : t.isCreation = false := by simp [Transaction.isCreation, ht]
    rw [hcr] at hex hst
    simp only [if_false, Bool.false_eq_true] at hex hst
    refine ⟨by rw [← hex, call_exec_t]; rfl, by rw [← hex, call_exec_sender]; rfl, ?_, ?_⟩
    · rw [← hst, call_st]; rfl
    · intro hrecv
      have hrecv2 : ra ≠ t.sender := hrecv
      have hra : t.receiveAddress = ra := by simp [Transaction.receiveAddress, ht]
      rw [← hst, call_st, hra]
      rw [State.balance_addBalance_ne _ _ _ _ (Ne.symm hrecv2)]
      simp only [State.balance_subBalance_self, State.balance_noteSending]
      exact Nat.sub_add_cancel (Nat.le_of_not_lt h3)

/-! Concrete fixtures used by the scenario theorem and the witnesses. -/

/-- Modelled from the spec: the intrinsic-gas function of scenario 1,
which treats the empty payload's intrinsic cost as zero. -/
def zeroGas : List Nat → Nat := fun _ => 0

/-- Scenario state: sender 1 with balance 1000 and nonce 0, fee recipient 3. -/
def s9 : State :=
  { accounts := fun a => if a = 1 then ⟨1000, 0, [], []⟩ else ⟨0, 0, [], []⟩,
    blockGasUsed := 0, blockGasLimit := 1000000, coinbase := 3,
    precompiled := fun _ => none }

/-- Scenario transaction: value 100, gas limit 50, gas price 2, nonce 0,
receiver 2 (an address with no code). -/
def t9 : Transaction := ⟨1, 0, 100, 2, 50, some 2, []⟩

/-- Scenario run: setup then go (a no-op here, no interpreter instance). -/
def run9 : Outcome :=
  (Executive.setup zeroGas s9 t9).exec.go (Executive.setup zeroGas s9 t9).st
    VMOutcome.otherFault

/-- Witness transaction for dispatch-level theorems. -/
def tW : Transaction := ⟨1, 0, 0, 0, 0, some 2, []⟩

/-- Witness precompiled contract requiring 10 gas. -/
def pc10 : Precompile := ⟨fun _ => 10, fun d => d⟩

/-- Witness state with the precompiled contract registered at address 2. -/
def sPC : State :=
  { accounts := fun _ => ⟨0, 0, [], []⟩,
    blockGasUsed := 0, blockGasLimit := 1000, coinbase := 3,
    precompiled := fun a => if a = 2 then some pc10 else none }

/-- Witness transaction with a 100 gas limit. -/
def tG : Transaction := ⟨1, 0, 0, 2, 100, some 2, []⟩

/-- Witness adapter for interpreter-frame theorems. -/
def extW : ExtVM := ExtVM.make 2 1 1 0 2 [] [0] 0

/-- Witness Executive holding an interpreter frame. -/
def exGo : Executive := { Executive.mkInit tG with vm := some 90, ext := some extW }

/-! Claim theorems. -/

/-- C9: for sender 1 with balance 1000 and nonce 0 and a transaction with
value 100, gas limit 50, gas price 2, nonce 0 to the codeless address 2,
validation passes, the sender is debited 200 leaving 800, the receiver is
credited 100, the no-code path concludes with end gas 50, and finalize
refunds 100 leaving the sender at 900 with nonce 1 while the fee
recipient receives 0. -/
theorem plain_transfer_example :
    (Executive.setup zeroGas s9 t9).res = Except.ok true
    ∧ (Executive.setup zeroGas s9 t9).st.balance 1 = 800
    ∧ (Executive.setup zeroGas s9 t9).st.balance 2 = 100
    ∧ (Executive.setup zeroGas s9 t9).exec.vm = none
    ∧ run9.concluded = true
    ∧ run9.exec.endGas = 50
    ∧ (run9.exec.finalize run9.st).balance 1 = 900
    ∧ (run9.exec.finalize run9.st).balance 2 = 100
    ∧ (run9.exec.finalize run9.st).balance 3 = 0
    ∧ (run9.exec.finalize run9.st).transactionsFrom 1 = 1 :=
  ⟨rfl, rfl, rfl, rfl, rfl, rfl, rfl, rfl, rfl, rfl⟩

/-- C2: every call credits the value to the receiver balance before any
precompile or code check, so even a call to a registered precompiled
contract whose required gas exceeds the supplied gas returns failure with
end gas zero and without executing the precompile, while the receiver
keeps the credited value. -/
theorem call_credits_value_first (ex : Executive) (s : State)
    (ra ca sa value gasPrice : Nat) (data : List Nat) (gas origin : Nat) :
    (ex.call s ra ca sa value gasPrice data gas origin).st.balance ra
        = s.balance ra + value
    ∧ (∀ p : Precompile, ra < 2 ^ 32 → s.precompiled ra = some p → gas < p.gas data →
        (ex.call s ra ca sa value gasPrice data gas origin).concluded = false
        ∧ (ex.call s ra ca sa value gasPrice data gas origin).exec.endGas = 0
        ∧ (ex.call s ra ca sa value gasPrice data gas origin).exec.precompileRan = false
        ∧ (ex.call s ra ca sa value gasPrice data gas origin).st.balance ra
            = s.balance ra + value) := by
  have hst := call_st ex s ra ca sa value gasPrice data gas origin
  constructor
  · rw [hst]; simp
  · intro p hlow hp hg
    have hsc : (if ra < 2 ^ 32 then (s.addBalance ra value).precompiled ra else none)
        = some p := by
      rw [if_pos hlow]
      show s.precompiled ra = some p
      exact hp
    refine ⟨?_, ?_, ?_, by rw [hst]; simp⟩
    · simp only [Executive.call]; rw [hsc]; simp [hg]
    · simp only [Executive.call]; rw [hsc]; simp [hg]
    · simp only [Executive.call]; rw [hsc]; simp [hg]

/-- Witness for C2 at a concrete precompiled call with 5 supplied gas
against a required 10. -/
theorem call_credits_value_first_witness :
    ((Executive.mkInit tW).call sPC 2 2 1 7 1 [] 5 1).concluded = false
    ∧ ((Executive.mkInit tW).call sPC 2 2 1 7 1 [] 5 1).exec.endGas = 0
    ∧ ((Executive.mkInit tW).call sPC 2 2 1 7 1 [] 5 1).exec.precompileRan = false
    ∧ ((Executive.mkInit tW).call sPC 2 2 1 7 1 [] 5 1).st.balance 2 = sPC.balance 2 + 7 :=
  (call_credits_value_first (Executive.mkInit tW) sPC 2 2 1 7 1 [] 5 1).2 pc10
    (by decide) rfl (by decide)

/-- C3: for an interpreted frame completing normally and not a creation,
the end gas equals the raw interpreter gas plus a refund of exactly
min((transaction gas limit - raw end gas) / 2, accumulated refunds) under
floor division, so the applied refund never exceeds half the gas consumed
nor the refund counter. -/
theorem go_refund_cap (ex : Executive) (s : State) (g : Nat) (e : ExtVM)
    (outBytes : List Nat) (gasLeft : Nat) (sub : SubState)
    (hv : ex.vm = some g) (he : ex.ext = some e) (hnc : ex.isCreation = false) :
    (ex.go s (VMOutcome.normal outBytes gasLeft sub)).exec.endGas
        = refundedGas ex.t.gas gasLeft sub.refunds
    ∧ refundedGas ex.t.gas gasLeft sub.refunds
        = gasLeft + min ((ex.t.gas - gasLeft) / 2) sub.refunds
    ∧ refundedGas ex.t.gas gasLeft sub.refunds - gasLeft ≤ (ex.t.gas - gasLeft) / 2
    ∧ refundedGas ex.t.gas gasLeft sub.refunds - gasLeft ≤ sub.refunds := by
  refine ⟨?_, rfl, ?_, ?_⟩
  · unfold Executive.go
    rw [hv, he]
    simp [hnc]
  · have h := min_le_left ((ex.t.gas - gasLeft) / 2) sub.refunds
    simp only [refundedGas]; omega
  · have h := min_le_right ((ex.t.gas - gasLeft) / 2) sub.refunds
    simp only [refundedGas]; omega

/-- Witness for C3 at a frame with a 100 gas limit, 40 raw end gas and a
refund counter of 7. -/
theorem go_refund_cap_witness :
    (exGo.go s9 (VMOutcome.normal [] 40 ⟨[], 7, []⟩)).exec.endGas
        = refundedGas exGo.t.gas 40 (⟨[], 7, []⟩ : SubState).refunds
    ∧ refundedGas exGo.t.gas 40 (⟨[], 7, []⟩ : SubState).refunds
        = 40 + min ((exGo.t.gas - 40) / 2) (⟨[], 7, []⟩ : SubState).refunds
    ∧ refundedGas exGo.t.gas 40 (⟨[], 7, []⟩ : SubState).refunds - 40
        ≤ (exGo.t.gas - 40) / 2
    ∧ refundedGas exGo.t.gas 40 (⟨[], 7, []⟩ : SubState).refunds - 40
        ≤ (⟨[], 7, []⟩ : SubState).refunds :=
  go_refund_cap exGo s9 90 extW [] 40 ⟨[], 7, []⟩ rfl rfl rfl

/-- C6: on a detected runtime fault the frame sets end gas to zero,
discards the accumulated sub-state through the adapter revert, marks the
frame excepted, does not re-raise, and still returns concluded with the
Ledger State and the recorded logs untouched. -/
theorem go_vm_fault_recovery (ex : Executive) (s : State) (g : Nat) (e : ExtVM)
    (sub : SubState) (hv : ex.vm = some g) (he : ex.ext = some e) :
    (ex.go s (VMOutcome.vmFault sub)).concluded = true
    ∧ (ex.go s (VMOutcome.vmFault sub)).exec.endGas = 0
    ∧ (ex.go s (VMOutcome.vmFault sub)).exec.excepted = true
    ∧ (ex.go s (VMOutcome.vmFault sub)).exec.ext = some { e with sub := SubState.empty }
    ∧ (ex.go s (VMOutcome.vmFault sub)).exec.logs = ex.logs
    ∧ (ex.go s (VMOutcome.vmFault sub)).st = s := by
  refine ⟨?_, ?_, ?_, ?_, ?_, ?_⟩ <;>
    (unfold Executive.go; rw [hv, he]; try simp [ExtVM.revert])

/-- Witness for C6 at a frame faulting with a non-empty accumulated
sub-state. -/
theorem go_vm_fault_recovery_witness :
    (exGo.go s9 (VMOutcome.vmFault ⟨[5], 3, [9]⟩)).concluded = true
    ∧ (exGo.go s9 (VMOutcome.vmFault ⟨[5], 3, [9]⟩)).exec.endGas = 0
    ∧ (exGo.go s9 (VMOutcome.vmFault ⟨[5], 3, [9]⟩)).exec.excepted = true
    ∧ (exGo.go s9 (VMOutcome.vmFault ⟨[5], 3, [9]⟩)).exec.ext
        = some { extW with sub := SubState.empty }
    ∧ (exGo.go s9 (VMOutcome.vmFault ⟨[5], 3, [9]⟩)).exec.logs = exGo.logs
    ∧ (exGo.go s9 (VMOutcome.vmFault ⟨[5], 3, [9]⟩)).st = s9 :=
  go_vm_fault_recovery exGo s9 90 extW ⟨[5], 3, [9]⟩ rfl rfl

@[simp] theorem State.addressHasCode_addBalance (s : State) (a b v : Nat) :
    (s.addBalance a v).addressHasCode b = s.addressHasCode b := by
  by_cases h : b = a <;> simp [State.addBalance, State.addressHasCode, State.update, h]

/-- C10: an interpreted call checks for code at the code address but
constructs the frame over the code stored at the receive address, so when
the two differ the executed bytecode is the receiver's. -/
theorem call_uses_receiver_code (ex : Executive) (s : State)
    (ra ca sa value gasPrice : Nat) (data : List Nat) (gas origin : Nat)
    (hpc : (if ra < 2 ^ 32 then s.precompiled ra else none) = none)
    (hcode : s.addressHasCode ca = true) :
    (ex.call s ra ca sa value gasPrice data gas origin).concluded = false
    ∧ (ex.call s ra ca sa value gasPrice data gas origin).exec.vm = some gas
    ∧ (ex.call s ra ca sa value gasPrice data gas origin).exec.ext
        = some (ExtVM.make ra sa origin value gasPrice data (s.code ra) ex.depth) := by
  have hsc : (if ra < 2 ^ 32 then (s.addBalance ra value).precompiled ra else none)
      = none := by
    show (if ra < 2 ^ 32 then s.precompiled ra else none) = none
    exact hpc
  have hc2 : (s.addBalance ra value).addressHasCode ca = true := by
    rw [State.addressHasCode_addBalance]; exact hcode
  have hcd : (s.addBalance ra value).code ra = s.code ra := State.code_addBalance s ra ra value
  refine ⟨?_, ?_, ?_⟩ <;> (simp only [Executive.call]; rw [hsc]; simp [hc2, hcd])

/-- Witness state for C10: address 7 holds code, address 8 holds none. -/
def sCode : State :=
  { accounts := fun a => if a = 7 then ⟨0, 0, [1, 2], []⟩ else ⟨0, 0, [], []⟩,
    blockGasUsed := 0, blockGasLimit := 1000, coinbase := 3,
    precompiled := fun _ => none }

/-- Witness for C10: calling receive address 8 with code address 7 builds
the frame over the empty code of address 8. -/
theorem call_uses_receiver_code_witness :
    ((Executive.mkInit tW).call sCode 8 7 1 0 1 [] 20 1).concluded = false
    ∧ ((Executive.mkInit tW).call sCode 8 7 1 0 1 [] 20 1).exec.vm = some 20
    ∧ ((Executive.mkInit tW).call sCode 8 7 1 0 1 [] 20 1).exec.ext
        = some (ExtVM.make 8 1 1 0 1 [] (sCode.code 8) (Executive.mkInit tW).depth) :=
  call_uses_receiver_code (Executive.mkInit tW) sCode 8 7 1 0 1 [] 20 1 rfl rfl

/-- C4: the address derived for a creation is a pure function of the
creator and the creator's nonce before its increment for this creation:
setup-driven creations use the pre-increment nonce, equal nonce and
sender give equal addresses, and distinct nonces give distinct
addresses. -/
theorem create_address_deterministic (txGas : List Nat → Nat) (s : State) (t : Transaction)
    (h1 : t.nonce = s.transactionsFrom t.sender)
    (h2 : ¬ t.gas < txGas t.data)
    (h3 : ¬ s.balance t.sender < t.value + t.gas * t.gasPrice)
    (h4 : ¬ s.blockGasUsed + t.gas > s.blockGasLimit)
    (hcr : t.receiver = none) :
    (Executive.setup txGas s t).exec.newAddress
        = createAddress t.sender (s.transactionsFrom t.sender)
    ∧ (∀ (ex ex2 : Executive) (s1 s2 : State) (sa en en2 gp gp2 ga ga2 : Nat)
        (ic ic2 : List Nat) (og og2 : Nat),
        s1.transactionsFrom sa = s2.transactionsFrom sa →
        (ex.create s1 sa en gp ga ic og).exec.newAddress
          = (ex2.create s2 sa en2 gp2 ga2 ic2 og2).exec.newAddress)
    ∧ (∀ (a n m : Nat), n ≠ m → createAddress a n ≠ createAddress a m) := by
  refine ⟨?_, ?_, ?_⟩
  · unfold Executive.setup
    rw [if_neg (by simp [h1]), if_neg h2, if_neg h3, if_neg h4]
    have hcrb : t.isCreation = true := by simp [Transaction.isCreation, hcr]
    simp only [hcrb, if_true, SetupOut.ofOutcome, create_exec_newAddress,
      State.transactionsFrom_subBalance, State.transactionsFrom_noteSending_self,
      Nat.add_sub_cancel]
  · intro ex ex2 s1 s2 sa en en2 gp gp2 ga ga2 ic ic2 og og2 h
    rw [create_exec_newAddress, create_exec_newAddress, h]
  · intro a n m hnm heq
    exact hnm (Nat.pair_eq_pair.mp heq).2

/-- Witness creation transaction for C4. -/
def tC4 : Transaction := ⟨1, 0, 10, 1, 60, none, []⟩

/-- Witness for C4: the derived address uses the pre-increment nonce 0,
and nonces 0 and 1 give distinct addresses. -/
theorem create_address_deterministic_witness :
    (Executive.setup zeroGas s9 tC4).exec.newAddress
        = createAddress tC4.sender (s9.transactionsFrom tC4.sender)
    ∧ createAddress 1 0 ≠ createAddress 1 1 :=
  ⟨(create_address_deterministic zeroGas s9 tC4 (by decide) (by decide) (by decide)
      (by decide) rfl).1,
   (create_address_deterministic zeroGas s9 tC4 (by decide) (by decide) (by decide)
      (by decide) rfl).2.2 1 0 1 (by decide)⟩

/-- C8: a creation frame completing normally pays the per-byte deployment
cost out of the refunded end gas when it can; otherwise the end gas is
left unchanged and the output is discarded entirely, so finalize installs
no code at the new address while the account and its balance persist. -/
theorem create_deploy_charge (ex : Executive) (s : State) (g : Nat) (e : ExtVM)
    (outBytes : List Nat) (gasLeft : Nat) (sub : SubState)
    (hv : ex.vm = some g) (he : ex.ext = some e) (hcr : ex.isCreation = true) :
    (outBytes.length * c_createDataGas ≤ refundedGas ex.t.gas gasLeft sub.refunds →
      (ex.go s (VMOutcome.normal outBytes gasLeft sub)).exec.endGas
          = refundedGas ex.t.gas gasLeft sub.refunds - outBytes.length * c_createDataGas
      ∧ (ex.go s (VMOutcome.normal outBytes gasLeft sub)).exec.out = outBytes)
    ∧ (¬ outBytes.length * c_createDataGas ≤ refundedGas ex.t.gas gasLeft sub.refunds →
      (ex.go s (VMOutcome.normal outBytes gasLeft sub)).exec.endGas
          = refundedGas ex.t.gas gasLeft sub.refunds
      ∧ (ex.go s (VMOutcome.normal outBytes gasLeft sub)).exec.out = []
      ∧ (ex.t.isCreation = true → ex.newAddress ∉ sub.suicides →
         ex.newAddress ≠ ex.sender → ex.newAddress ≠ s.coinbase →
          ((ex.go s (VMOutcome.normal outBytes gasLeft sub)).exec.finalize
              (ex.go s (VMOutcome.normal outBytes gasLeft sub)).st).code ex.newAddress = []
          ∧ ((ex.go s (VMOutcome.normal outBytes gasLeft sub)).exec.finalize
              (ex.go s (VMOutcome.normal outBytes gasLeft sub)).st).balance ex.newAddress
              = s.balance ex.newAddress)) := by
  constructor
  · intro h
    constructor <;> (unfold Executive.go; rw [hv, he]; simp [hcr, h])
  · intro h
    have hgo : (ex.go s (VMOutcome.normal outBytes gasLeft sub)).exec
        = { ex with
            out := [],
            endGas := refundedGas ex.t.gas gasLeft sub.refunds,
            logs := sub.logs,
            ext := some { e with sub := sub } } := by
      unfold Executive.go; rw [hv, he]; simp [hcr, h]
    refine ⟨by rw [hgo], by rw [hgo], ?_⟩
    intro hct hns hnsend hncb
    rw [go_st, hgo]
    constructor
    · exact finalize_code_newAddress _ _ hct hns
    · exact finalize_balance_other _ _ _ hns hnsend hncb

/-- Witness creation transaction for C8 and C7. -/
def tCr : Transaction := ⟨1, 0, 0, 2, 100, none, []⟩

/-- Witness creation Executive holding an interpreter frame. -/
def exCr : Executive :=
  { Executive.mkInit tCr with vm := some 90, ext := some extW, isCreation := true }

/-- Witness for C8: a 3-byte output is charged 15 gas out of 40, while a
9-byte output cannot be covered, is discarded, and no code is installed
at the new address by finalize. -/
theorem create_deploy_charge_witness :
    ((exCr.go s9 (VMOutcome.normal [1, 2, 3] 40 ⟨[], 0, []⟩)).exec.endGas
        = refundedGas exCr.t.gas 40 (⟨[], 0, []⟩ : SubState).refunds
            - [1, 2, 3].length * c_createDataGas)
    ∧ ((exCr.go s9 (VMOutcome.normal [1, 1, 1, 1, 1, 1, 1, 1, 1] 40 ⟨[], 0, []⟩)).exec.out = [])
    ∧ (((exCr.go s9 (VMOutcome.normal [1, 1, 1, 1, 1, 1, 1, 1, 1] 40 ⟨[], 0, []⟩)).exec.finalize
        (exCr.go s9 (VMOutcome.normal [1, 1, 1, 1, 1, 1, 1, 1, 1] 40 ⟨[], 0, []⟩)).st).code
          exCr.newAddress = []) :=
  ⟨((create_deploy_charge exCr s9 90 extW [1, 2, 3] 40 ⟨[], 0, []⟩ rfl rfl rfl).1
      (by decide)).1,
   ((create_deploy_charge exCr s9 90 extW [1, 1, 1, 1, 1, 1, 1, 1, 1] 40 ⟨[], 0, []⟩
      rfl rfl rfl).2 (by decide)).2.1,
   (((create_deploy_charge exCr s9 90 extW [1, 1, 1, 1, 1, 1, 1, 1, 1] 40 ⟨[], 0, []⟩
      rfl rfl rfl).2 (by decide)).2.2 rfl (by decide) (by decide) (by decide)).1⟩

/-- C7: finalize installs the output as the new address's code exactly
for a creation whose new address did not self-destruct, credits the
sender the unused gas, credits the fee recipient the consumed gas times
the gas price, and clears every account of the self-destruct set; it is a
total function with no failure path. -/
theorem finalize_effects (ex : Executive) (s : State) (e : ExtVM) (he : ex.ext = some e) :
    (ex.t.isCreation = true → ex.newAddress ∉ e.sub.suicides →
        (ex.finalize s).code ex.newAddress = ex.out)
    ∧ (ex.t.isCreation = false → ∀ a, a ∉ e.sub.suicides →
        (ex.finalize s).code a = s.code a)
    ∧ (ex.sender ∉ e.sub.suicides → s.coinbase ≠ ex.sender →
        (ex.finalize s).balance ex.sender
          = s.balance ex.sender + ex.endGas * ex.t.gasPrice)
    ∧ (s.coinbase ∉ e.sub.suicides → s.coinbase ≠ ex.sender →
        (ex.finalize s).balance s.coinbase
          = s.balance s.coinbase + (ex.t.gas - ex.endGas) * ex.t.gasPrice)
    ∧ (∀ a, a ∈ e.sub.suicides → (ex.finalize s).accounts a = Account.dead) := by
  have hs : extSuicides ex = e.sub.suicides := by simp [extSuicides, he]
  refine ⟨?_, ?_, ?_, ?_, ?_⟩
  · intro hcr hns
    exact finalize_code_newAddress ex s hcr (by rw [hs]; exact hns)
  · intro hcr a hns
    exact finalize_code_not_creation ex s a hcr (by rw [hs]; exact hns)
  · intro h1 h2
    exact finalize_balance_sender ex s (by rw [hs]; exact h1) h2
  · intro h1 h2
    exact finalize_balance_coinbase ex s (by rw [hs]; exact h1) h2
  · intro a ha
    exact finalize_accounts_suicide ex s a (by rw [hs]; exact ha)

/-- Witness Executive for C7: a concluded creation with output bytes, end
gas 10 and the self-destruct set containing address 5. -/
def exFin : Executive :=
  { Executive.mkInit tCr with
    endGas := 10,
    out := [7],
    ext := some { extW with sub := ⟨[], 0, [5]⟩ } }

/-- Witness for C7 at concrete finalize effects: code installed, sender
and fee recipient credited, destructed account cleared. -/
theorem finalize_effects_witness :
    (exFin.finalize s9).code exFin.newAddress = exFin.out
    ∧ (exFin.finalize s9).balance exFin.sender
        = s9.balance exFin.sender + exFin.endGas * exFin.t.gasPrice
    ∧ (exFin.finalize s9).balance s9.coinbase
        = s9.balance s9.coinbase + (exFin.t.gas - exFin.endGas) * exFin.t.gasPrice
    ∧ (exFin.finalize s9).accounts 5 = Account.dead :=
  ⟨(finalize_effects exFin s9 { extW with sub := ⟨[], 0, [5]⟩ } rfl).1 rfl (by decide),
   (finalize_effects exFin s9 { extW with sub := ⟨[], 0, [5]⟩ } rfl).2.2.1
      (by decide) (by decide),
   (finalize_effects exFin s9 { extW with sub := ⟨[], 0, [5]⟩ } rfl).2.2.2.1
      (by decide) (by decide),
   (finalize_effects exFin s9 { extW with sub := ⟨[], 0, [5]⟩ } rfl).2.2.2.2 5 (by decide)⟩

/-- C1: setup validates in the exact order nonce, intrinsic-gas floor,
affordability, block gas budget; any failing check rejects with the
corresponding error and leaves the Ledger State untouched; when all four
pass, the sender nonce is incremented by exactly one and the sender is
debited exactly value plus gas limit times gas price, both on the state
handed to the create or call dispatch. -/
theorem setup_validation_spec (txGas : List Nat → Nat) (s : State) (t : Transaction) :
    (t.nonce ≠ s.transactionsFrom t.sender →
      Executive.setup txGas s t = ⟨.error .invalidNonce, Executive.mkInit t, s⟩)
    ∧ (t.nonce = s.transactionsFrom t.sender → t.gas < txGas t.data →
      Executive.setup txGas s t = ⟨.error .outOfGas, Executive.mkInit t, s⟩)
    ∧ (t.nonce = s.transactionsFrom t.sender → ¬ t.gas < txGas t.data →
        s.balance t.sender < t.value + t.gas * t.gasPrice →
      Executive.setup txGas s t = ⟨.error .notEnoughCash, Executive.mkInit t, s⟩)
    ∧ (t.nonce = s.transactionsFrom t.sender → ¬ t.gas < txGas t.data →
        ¬ s.balance t.sender < t.value + t.gas * t.gasPrice →
        s.blockGasUsed + t.gas > s.blockGasLimit →
      Executive.setup txGas s t = ⟨.error .blockGasLimitReached, Executive.mkInit t, s⟩)
    ∧ (t.nonce = s.transactionsFrom t.sender → ¬ t.gas < txGas t.data →
        ¬ s.balance t.sender < t.value + t.gas * t.gasPrice →
        ¬ s.blockGasUsed + t.gas > s.blockGasLimit →
      ((s.noteSending t.sender).subBalance t.sender
          (t.value + t.gas * t.gasPrice)).transactionsFrom t.sender
        = s.transactionsFrom t.sender + 1
      ∧ ((s.noteSending t.sender).subBalance t.sender
          (t.value + t.gas * t.gasPrice)).balance t.sender
          + (t.value + t.gas * t.gasPrice) = s.balance t.sender
      ∧ Executive.setup txGas s t = SetupOut.ofOutcome
          (if t.isCreation then
            (Executive.mkInit t).create
              ((s.noteSending t.sender).subBalance t.sender (t.value + t.gas * t.gasPrice))
              t.sender t.value t.gasPrice (t.gas - txGas t.data) t.data t.sender
          else
            (Executive.mkInit t).call
              ((s.noteSending t.sender).subBalance t.sender (t.value + t.gas * t.gasPrice))
              t.receiveAddress t.receiveAddress t.sender t.value t.gasPrice t.data
              (t.gas - txGas t.data) t.sender)) := by
  refine ⟨?_, ?_, ?_, ?_, ?_⟩
  · intro h1
    unfold Executive.setup; rw [if_pos h1]
  · intro h1 h2
    unfold Executive.setup; rw [if_neg (fun hh => hh h1), if_pos h2]
  · intro h1 h2 h3
    unfold Executive.setup; rw [if_neg (fun hh => hh h1), if_neg h2, if_pos h3]
  · intro h1 h2 h3 h4
    unfold Executive.setup
    rw [if_neg (fun hh => hh h1), if_neg h2, if_neg h3, if_pos h4]
  · intro h1 h2 h3 h4
    refine ⟨by simp, ?_, ?_⟩
    · simp only [State.balance_subBalance_self, State.balance_noteSending]
      exact Nat.sub_add_cancel (Nat.le_of_not_lt h3)
    · unfold Executive.setup
      rw [if_neg (fun hh => hh h1), if_neg h2, if_neg h3, if_neg h4]

/-- Witness transaction for C1 carrying a wrong nonce. -/
def tBad : Transaction := ⟨1, 5, 100, 2, 50, some 2, []⟩

/-- Witness for C1: a wrong-nonce transaction is rejected with the state
returned untouched, and the accepted scenario transaction debits the
sender exactly value plus gas limit times gas price. -/
theorem setup_validation_spec_witness :
    Executive.setup zeroGas s9 tBad = ⟨.error .invalidNonce, Executive.mkInit tBad, s9⟩
    ∧ ((s9.noteSending t9.sender).subBalance t9.sender
        (t9.value + t9.gas * t9.gasPrice)).balance t9.sender
        + (t9.value + t9.gas * t9.gasPrice) = s9.balance t9.sender :=
  ⟨(setup_validation_spec zeroGas s9 tBad).1 (by decide),
   ((setup_validation_spec zeroGas s9 t9).2.2.2.2 (by decide) (by decide) (by decide)
      (by decide)).2.1⟩

/-- C5: for an accepted transaction whose receiver (called address, or
derived creation address) and fee recipient both differ from the sender,
and whose frame did not self-destruct the sender, the sender balance
decreases across setup, go and finalize by exactly value plus consumed
gas times gas price, with no rounding loss. -/
theorem accepted_tx_balance_accounting (txGas : List Nat → Nat) (s : State) (t : Transaction)
    (r : VMOutcome) (exF : Executive) (sF : State)
    (hrun : execute txGas s t r = some (exF, sF))
    (hrecv : (match t.receiver with
              | some a => a
              | none => createAddress t.sender (s.transactionsFrom t.sender)) ≠ t.sender)
    (hcb : s.coinbase ≠ t.sender)
    (hkill : t.sender ∉ extSuicides exF)
    (hgas : exF.endGas ≤ t.gas) :
    sF.balance t.sender + (t.value + (t.gas - exF.endGas) * t.gasPrice)
      = s.balance t.sender := by
  have key : ∀ (A B v gp ep : Nat), A + (v + gp) = B → ep ≤ gp →
      A + ep + (v + (gp - ep)) = B := by
    intro A B v gp ep hx hy; omega
  unfold execute at hrun
  rcases hset : Executive.setup txGas s t with ⟨res, exec, st⟩
  try rw [hset] at hrun
  rcases res with err | b
  · simp at hrun
  · simp only [] at hrun
    split at hrun
    · simp only [Option.some.injEq, Prod.mk.injEq] at hrun
      obtain ⟨hex, hsf⟩ := hrun
      obtain ⟨hT, hS, hCB, hBal⟩ := setup_ok_spec txGas s t b exec st hset
      have hbal := hBal hrecv
      subst hex
      subst hsf
      have hgoex_s : (exec.go st r).exec.sender = t.sender := by rw [go_exec_sender, hS]
      have hgoex_t : (exec.go st r).exec.t = t := by rw [go_exec_t, hT]
      have hgost : (exec.go st r).st = st := go_st exec st r
      rw [hgost]
      have hfin := finalize_balance_sender (exec.go st r).exec st
        (by rw [hgoex_s]; exact hkill) (by rw [hCB, hgoex_s]; exact hcb)
      rw [hgoex_s, hgoex_t] at hfin
      rw [hfin, Nat.sub_mul]
      exact key _ _ _ _ _ hbal (Nat.mul_le_mul_right _ hgas)
    · simp at hrun

/-- Concrete accepted run for the C5 witness. -/
def c5res : Executive × State :=
  (execute zeroGas s9 t9 VMOutcome.otherFault).getD (Executive.mkInit t9, s9)

/-- Witness for C5 at the scenario transaction: the sender loses exactly
value plus consumed gas times gas price. -/
theorem accepted_tx_balance_accounting_witness :
    c5res.2.balance t9.sender + (t9.value + (t9.gas - c5res.1.endGas) * t9.gasPrice)
      = s9.balance t9.sender :=
  accepted_tx_balance_accounting zeroGas s9 t9 VMOutcome.otherFault c5res.1 c5res.2
    rfl (by decide) (by decide) (by decide) (by decide)
